import Mathlib

/-
Shallow embedding of the trajectory-repair core of deepof
(src/deepof/utils.py): the GapFiller (pandas linear interpolation with a
limit in both directions), the constraint-graph builder
(MouseTrackingImputer._initialize_constraints), the single-pass skeleton
constraint enforcement (enforce_skeleton_constraints_numba), the RTS
smoother (rts_smoother_numba), and the orchestration in
MouseTrackingImputer.fit_transform / iterative_imputation.

Floating-point numbers are modelled as real numbers; NaN entries are
modelled as `none : Option ℝ`.
-/

namespace DeepOF

/-- A table entry: `none` models NaN (a missing value). -/
abbrev Entry := Option ℝ

/-- One column of a positional table, indexed by frame number. -/
abbrev Col := List Entry

/-- Indices of the non-missing entries of a column. -/
def validIdxs (xs : Col) : List ℕ :=
  (List.range xs.length).filter (fun j => (xs.getD j none).isSome)

/-- Index of the nearest valid entry at or before position `i`, if any. -/
def prevValid (xs : Col) (i : ℕ) : Option ℕ :=
  ((validIdxs xs).filter (fun j => decide (j ≤ i))).max?

/-- Index of the nearest valid entry at or after position `i`, if any. -/
def nextValid (xs : Col) (i : ℕ) : Option ℕ :=
  ((validIdxs xs).filter (fun j => decide (i ≤ j))).min?

/-- The value stored at position `j`, with 0 for missing entries. -/
noncomputable def entryVal (xs : Col) (j : ℕ) : ℝ :=
  (xs.getD j none).getD 0

/-- Value assigned at position `i` by numpy np.interp over the valid points
of the column, as used by pandas for method="linear": linear interpolation
between the surrounding valid entries, clamped to the nearest valid value
beyond the first/last valid entry. -/
noncomputable def interpVal (xs : Col) (i : ℕ) : ℝ :=
  match prevValid xs i, nextValid xs i with
  | some j, some k =>
      if j = k then entryVal xs j
      else entryVal xs j +
        ((i : ℝ) - (j : ℝ)) * (entryVal xs k - entryVal xs j) / ((k : ℝ) - (j : ℝ))
  | some j, none => entryVal xs j
  | none, some k => entryVal xs k
  | none, none => 0

/-- Decision of pandas `_interp_limit(invalid, limit, limit)` (the
limit_direction="both" case): a missing entry is filled exactly when some
valid entry lies at most `limit` positions before it or at most `limit`
positions after it; otherwise it is preserved as NaN. -/
def fillable (xs : Col) (limit i : ℕ) : Bool :=
  ((validIdxs xs).any (fun j => decide (j ≤ i ∧ i - j ≤ limit))) ||
  ((validIdxs xs).any (fun j => decide (i ≤ j ∧ j - i ≤ limit)))

/-- Model of `Series.interpolate(method="linear", limit, limit_direction="both")`
as invoked by MouseTrackingImputer.fit_transform (src/deepof/utils.py):
valid entries are kept; a missing entry within `limit` positions of a valid
entry on at least one side receives its np.interp value; all other missing
entries stay missing. -/
noncomputable def interpolateColumn (xs : Col) (limit : ℕ) : Col :=
  (List.range xs.length).map (fun i =>
    match xs.getD i none with
    | some v => some v
    | none => if fillable xs limit i then some (interpVal xs i) else none)

/-- A 2D point (one body part in one frame). -/
abbrev Pt := ℝ × ℝ

/-- Euclidean distance between two points, as computed by
np.sqrt(np.sum((p1 - p2) ** 2)) in the source. -/
noncomputable def dist2 (p q : Pt) : ℝ :=
  Real.sqrt ((p.1 - q.1) ^ 2 + (p.2 - q.2) ^ 2)

/-- One iteration of the inner constraint loop of
enforce_skeleton_constraints_numba (src/deepof/utils.py): check the
current distance of the two parts against the expected distance, and when
it is outside the relative tolerance band, move the unobserved endpoint
(or both endpoints when neither is observed) toward or away from their
midpoint. Observedness of a part is read from the x-component (index 0) of
its presence-mask pair, exactly as in the source. -/
noncomputable def applyConstraint (tol cf : ℝ) (maskRow : List (Bool × Bool))
    (row : List Pt) (c : ℕ × ℕ × ℝ) : List Pt :=
  let part1 := c.1
  let part2 := c.2.1
  let dst := c.2.2
  let p1 := row.getD part1 (0, 0)
  let p2 := row.getD part2 (0, 0)
  let currentDist := dist2 p1 p2
  if currentDist > dst * (1 + tol) ∨ currentDist < dst * (1 - tol) then
    let correction := (currentDist - dst) / (2 * currentDist + 0.00001) * cf
    let pm := ((p1.1 + p2.1) / 2, (p1.2 + p2.2) / 2)
    if (maskRow.getD part1 (false, false)).1 then
      row.set part2
        (p2.1 + 2 * correction * (pm.1 - p2.1), p2.2 + 2 * correction * (pm.2 - p2.2))
    else if (maskRow.getD part2 (false, false)).1 then
      row.set part1
        (p1.1 + 2 * correction * (pm.1 - p1.1), p1.2 + 2 * correction * (pm.2 - p1.2))
    else
      (row.set part1
        (p1.1 + correction * (pm.1 - p1.1),
         p1.2 + correction * (pm.2 - p1.2))).set part2
        (p2.1 + correction * (pm.1 - p2.1), p2.2 + correction * (pm.2 - p2.2))
  else
    row

/-- The single pass over the constraint list for one frame. -/
noncomputable def enforceFrame (tol cf : ℝ) (constraints : List (ℕ × ℕ × ℝ))
    (maskRow : List (Bool × Bool)) (row : List Pt) : List Pt :=
  constraints.foldl (applyConstraint tol cf maskRow) row

/-- Model of enforce_skeleton_constraints_numba (src/deepof/utils.py): a
frame whose body parts all have their x-component flagged original is
skipped; every other frame receives a single pass over the constraints,
with updates of earlier constraints visible to later ones. -/
noncomputable def enforceSkeletonConstraints (data : List (List Pt))
    (skeletonConstraints : List (ℕ × ℕ × ℝ))
    (originalPos : List (List (Bool × Bool)))
    (tolerance correctionFactor : ℝ) : List (List Pt) :=
  (data.zip originalPos).map (fun fr =>
    if fr.2.all (fun q => q.1) then fr.1
    else enforceFrame tolerance correctionFactor skeletonConstraints fr.2 fr.1)

/-- The violation of a constraint in a frame: absolute deviation of the
current distance of the two parts from the expected distance. -/
noncomputable def violation (row : List Pt) (c : ℕ × ℕ × ℝ) : ℝ :=
  |dist2 (row.getD c.1 (0, 0)) (row.getD c.2.1 (0, 0)) - c.2.2|

/-- The x-components (axis 0) of a presence mask. -/
def maskFst (m : List (List (Bool × Bool))) : List (List Bool) :=
  m.map (fun r => r.map Prod.fst)

/-- Fuel-driven helper for Python range: at most `fuel` further elements. -/
def pyRangeAux : ℕ → ℕ → ℕ → ℕ → List ℕ
  | 0, _, _, _ => []
  | fuel + 1, start, stop, step =>
      if start < stop then start :: pyRangeAux fuel (start + step) stop step else []

/-- Python range(start, stop, step) for a positive step; Python raises for
step 0, modelled here as the empty list. A fuel of stop - start suffices
because every emitted element advances start by step ≥ 1. -/
def pyRange (start stop step : ℕ) : List ℕ :=
  if step = 0 then [] else pyRangeAux (stop - start) start stop step

/-- Python dict assignment m[k] = v: overwrite in place, or append. -/
def dictInsert (m : List (String × ℕ)) (k : String) (v : ℕ) : List (String × ℕ) :=
  if m.any (fun e => e.1 == k) then m.map (fun e => if e.1 == k then (k, v) else e)
  else m ++ [(k, v)]

/-- Python dict lookup. -/
def dictFind (m : List (String × ℕ)) (k : String) : Option ℕ :=
  (m.find? (fun e => e.1 == k)).map Prod.snd

/-- body_part_indices as built by _initialize_constraints: every column
(in order) whose first-level label is not Row assigns
label -> int((i - 1) / 2); for a body part whose x and y columns sit at
positions 2k and 2k+1 the second assignment overwrites the first, leaving
index k, the position of the part in the reshaped [frame, part, axis]
array (the Row pair occupies part 0). Python int((i-1)/2) truncates toward
zero, so i = 0 gives 0, as does the saturating ℕ subtraction here. -/
def bodyPartIndices (cols : List String) : List (String × ℕ) :=
  cols.enum.foldl
    (fun m e => if e.2 = "Row" then m else dictInsert m e.2 ((e.1 - 1) / 2)) []

/-- The frames without any NaN entry. -/
def completeFrames (rows : List (List Entry)) : List (List Entry) :=
  rows.filter (fun r => r.all Option.isSome)

/-- Subsampling of complete frames in _initialize_constraints:
step = max(1, total // mouse_body_estimation_samples) and
sampled = [complete[i] for i in range(0, total, step)]. -/
def sampledFrames (maxSamples : ℕ) (rows : List (List Entry)) : List (List Entry) :=
  let cf := completeFrames rows
  let step := max 1 (cf.length / maxSamples)
  (pyRange 0 cf.length step).map (fun i => cf.getD i [])

/-- Index of the x column of a body part (its first column); the y column
is the one after it. -/
def colIdx (cols : List String) (p : String) : ℕ := cols.indexOf p

/-- The x value of a body part in a row (row[part]["x"] in the source). -/
noncomputable def partX (cols : List String) (r : List Entry) (p : String) : ℝ :=
  (r.getD (colIdx cols p) none).getD 0

/-- The y value of a body part in a row. -/
noncomputable def partY (cols : List String) (r : List Entry) (p : String) : ℝ :=
  (r.getD (colIdx cols p + 1) none).getD 0

/-- Distance of two body parts in one row. -/
noncomputable def partDist (cols : List String) (r : List Entry) (p1 p2 : String) : ℝ :=
  Real.sqrt ((partX cols r p1 - partX cols r p2) ^ 2 +
    (partY cols r p1 - partY cols r p2) ^ 2)

/-- np.mean of the per-sampled-frame distances. -/
noncomputable def meanPartDist (cols : List String) (frames : List (List Entry))
    (p1 p2 : String) : ℝ :=
  (frames.map (fun r => partDist cols r p1 p2)).sum / frames.length

/-- The constraint list built by _initialize_constraints: one entry per
ordered pair (part1, part2) with part2 in the adjacency list of part1
(networkx .adj stores every undirected edge in both directions) whose two
labels are both present in the body-part index map. -/
noncomputable def skeletonConstraintsOf (adj : List (String × List String))
    (cols : List String) (sampled : List (List Entry)) : List (ℕ × ℕ × ℝ) :=
  adj.flatMap (fun e =>
    e.2.filterMap (fun p2 =>
      match dictFind (bodyPartIndices cols) e.1, dictFind (bodyPartIndices cols) p2 with
      | some i1, some i2 => some (i1, i2, meanPartDist cols sampled e.1 p2)
      | _, _ => none))

/-- Symmetry of a networkx adjacency structure: every neighbor entry has a
mirror entry. -/
abbrev AdjSymm (adj : List (String × List String)) : Prop :=
  ∀ e ∈ adj, ∀ q ∈ e.2, ∃ e2 ∈ adj, e2.1 = q ∧ e.1 ∈ e2.2

/-- A 2-vector (the [position, velocity] state). -/
abbrev Vec2 := ℝ × ℝ

/-- A 2x2 matrix as a pair of rows. rts_smoother_numba accepts matrices of
any size, but the pipeline (_kalman_smoothing) always calls it with a
2-dimensional state and 1-dimensional measurements; the embedding is
specialised to that shape. -/
abbrev Mat2 := Vec2 × Vec2

/-- Python exception kinds raised by the embedded code. -/
inductive PyErr : Type
  | valueError : String → PyErr
  | assertionError : String → PyErr
  | linAlgError : String → PyErr
  | indexError : String → PyErr
deriving DecidableEq

def m2apply (A : Mat2) (v : Vec2) : Vec2 :=
  (A.1.1 * v.1 + A.1.2 * v.2, A.2.1 * v.1 + A.2.2 * v.2)

def m2mul (A B : Mat2) : Mat2 :=
  ((A.1.1 * B.1.1 + A.1.2 * B.2.1, A.1.1 * B.1.2 + A.1.2 * B.2.2),
   (A.2.1 * B.1.1 + A.2.2 * B.2.1, A.2.1 * B.1.2 + A.2.2 * B.2.2))

def m2add (A B : Mat2) : Mat2 :=
  ((A.1.1 + B.1.1, A.1.2 + B.1.2), (A.2.1 + B.2.1, A.2.2 + B.2.2))

def m2sub (A B : Mat2) : Mat2 :=
  ((A.1.1 - B.1.1, A.1.2 - B.1.2), (A.2.1 - B.2.1, A.2.2 - B.2.2))

def m2transpose (A : Mat2) : Mat2 := ((A.1.1, A.2.1), (A.1.2, A.2.2))

def m2det (A : Mat2) : ℝ := A.1.1 * A.2.2 - A.1.2 * A.2.1

def m2id : Mat2 := ((1, 0), (0, 1))

def m2zero : Mat2 := ((0, 0), (0, 0))

noncomputable def m2scale (k : ℝ) (A : Mat2) : Mat2 :=
  ((k * A.1.1, k * A.1.2), (k * A.2.1, k * A.2.2))

/-- np.linalg.inv of a 2x2 matrix; numba raises LinAlgError on an exactly
singular matrix. -/
noncomputable def m2invE (A : Mat2) : Except PyErr Mat2 :=
  if m2det A = 0 then .error (.linAlgError "Matrix is singular to machine precision.")
  else .ok ((A.2.2 / m2det A, -A.1.2 / m2det A), (-A.2.1 / m2det A, A.1.1 / m2det A))

/-- np.linalg.inv of the 1x1 innovation covariance. -/
noncomputable def invSE (S : ℝ) : Except PyErr ℝ :=
  if S = 0 then .error (.linAlgError "Matrix is singular to machine precision.")
  else .ok S⁻¹

/-- H P Hᵀ for a 1x2 observation row H and 2x2 covariance P. -/
def hPh (H : Vec2) (P : Mat2) : ℝ :=
  H.1 * (P.1.1 * H.1 + P.1.2 * H.2) + H.2 * (P.2.1 * H.1 + P.2.2 * H.2)

/-- One record per time step of the forward (Kalman filter) pass. -/
structure KStep : Type where
  filtS : Vec2
  filtC : Mat2
  predS : Vec2
  predC : Mat2

/-- The forward loop of rts_smoother_numba for t = 1..n-1, carrying the
previous filtered state and covariance. -/
noncomputable def forwardSteps (F : Mat2) (H : Vec2) (Q : Mat2) (R : ℝ) :
    Vec2 → Mat2 → List ℝ → Except PyErr (List KStep)
  | _, _, [] => .ok []
  | fs, fc, m :: rest => do
      let ps := m2apply F fs
      let pc := m2add (m2mul (m2mul F fc) (m2transpose F)) Q
      let S := hPh H pc + R
      let Sinv ← invSE S
      let PHt : Vec2 := (pc.1.1 * H.1 + pc.1.2 * H.2, pc.2.1 * H.1 + pc.2.2 * H.2)
      let K : Vec2 := (PHt.1 * Sinv, PHt.2 * Sinv)
      let innov := m - (H.1 * ps.1 + H.2 * ps.2)
      let fs2 : Vec2 := (ps.1 + K.1 * innov, ps.2 + K.2 * innov)
      let KH : Mat2 := ((K.1 * H.1, K.1 * H.2), (K.2 * H.1, K.2 * H.2))
      let fc2 := m2mul (m2sub m2id KH) pc
      let tail ← forwardSteps F H Q R fs2 fc2 rest
      .ok (⟨fs2, fc2, ps, pc⟩ :: tail)

/-- The backward (RTS) loop of rts_smoother_numba: walks the filter steps
from the last one down, combining each filtered estimate with the next
smoothed estimate through the gain C = filtC Fᵀ inv(predC next). -/
noncomputable def rtsBackward (F : Mat2) : List KStep → Except PyErr (List (Vec2 × Mat2))
  | [] => .ok []
  | [last] => .ok [(last.filtS, last.filtC)]
  | s :: rest => do
      let tailSm ← rtsBackward F rest
      match tailSm, rest with
      | (smS, smC) :: _, next :: _ => do
          let Pinv ← m2invE next.predC
          let Cg := m2mul (m2mul s.filtC (m2transpose F)) Pinv
          let d : Vec2 := (smS.1 - next.predS.1, smS.2 - next.predS.2)
          let newS : Vec2 := (s.filtS.1 + (Cg.1.1 * d.1 + Cg.1.2 * d.2),
            s.filtS.2 + (Cg.2.1 * d.1 + Cg.2.2 * d.2))
          let newC := m2add s.filtC
            (m2mul (m2mul Cg (m2sub smC next.predC)) (m2transpose Cg))
          .ok ((newS, newC) :: tailSm)
      | _, _ => .error (.indexError "unreachable")

/-- rts_smoother_numba (src/deepof/utils.py), specialised to state
dimension 2 and measurement dimension 1 as used by _kalman_smoothing.
filtered_states[0] = measurements[0] broadcasts the scalar measurement
into both state components; the initial covariance is 1000 * I. An empty
measurement sequence raises (index 0 of an empty array). Each returned
pair is the smoothed [position, velocity] state of one time step. -/
noncomputable def rtsSmoother (ms : List ℝ) (F : Mat2) (H : Vec2) (Q : Mat2) (R : ℝ) :
    Except PyErr (List Vec2) :=
  match ms with
  | [] => .error (.indexError "index 0 is out of bounds")
  | m0 :: rest => do
      let s0 : KStep := ⟨(m0, m0), m2scale 1000 m2id, (0, 0), m2zero⟩
      let steps ← forwardSteps F H Q R (m0, m0) (m2scale 1000 m2id) rest
      let sm ← rtsBackward F (s0 :: steps)
      .ok (sm.map Prod.fst)

/-- The innovation covariance S of the first filter update (t = 1), as a
function of the model matrices: S = H (F (1000 I) Fᵀ + Q) Hᵀ + R. -/
noncomputable def innovCov1 (F : Mat2) (H : Vec2) (Q : Mat2) (R : ℝ) : ℝ :=
  hPh H (m2add (m2mul (m2mul F (m2scale 1000 m2id)) (m2transpose F)) Q) + R

/-- _initialize_constraints (src/deepof/utils.py): raise ValueError when
the data has no complete frame; otherwise build the constraints from the
evenly sampled complete frames; the trailing assert raises AssertionError
when the constraint list is empty. -/
noncomputable def initConstraints (maxSamples : ℕ)
    (adj : List (String × List String)) (cols : List String)
    (rows : List (List Entry)) : Except PyErr (List (ℕ × ℕ × ℝ)) :=
  if (completeFrames rows).length = 0 then
    .error (.valueError "No complete frames found in the data.")
  else
    let cons := skeletonConstraintsOf adj cols (sampledFrames maxSamples rows)
    if cons.length > 0 then .ok cons
    else .error (.assertionError "table headers and connectivity did not match")

/-- data.interpolate(method="linear", limit, limit_direction="both",
inplace=True) on the whole table: every column independently. -/
noncomputable def interpolateTable (limit : ℕ) (rows : List (List Entry)) :
    List (List Entry) :=
  (rows.transpose.map (fun c => interpolateColumn c limit)).transpose

/-- data.values.reshape(len(data), -1, 2): group the entries of a row into
consecutive (x, y) pairs. -/
def toPairRow : List Entry → List (Entry × Entry)
  | x :: y :: rest => (x, y) :: toPairRow rest
  | _ => []

/-- Replace NaN by 0 to read a frame known to be complete (used only on
frames that contain no NaN). -/
noncomputable def unwrapRow (r : List (Entry × Entry)) : List Pt :=
  r.map (fun e => (e.1.getD 0, e.2.getD 0))

/-- completed_data[nan_frames] = imputed: walk the frames, consuming the
imputed rows in order at the flagged positions. -/
noncomputable def scatterImputed :
    List (List (Entry × Entry)) → List Bool → List (List Pt) → List (List Pt)
  | [], _, _ => []
  | r :: rs, [], imp => unwrapRow r :: scatterImputed rs [] imp
  | r :: rs, fl :: fls, imp =>
      if fl then imp.headD [] :: scatterImputed rs fls imp.tail
      else unwrapRow r :: scatterImputed rs fls imp

/-- completed_data[original_pos] = reshaped_data[original_pos]: every
originally observed component is copied back over the computed value. -/
noncomputable def restoreObserved (reshaped : List (List (Entry × Entry)))
    (comp : List (List Pt)) : List (List Pt) :=
  (reshaped.zip comp).map (fun rc =>
    (rc.1.zip rc.2).map (fun ec =>
      (if ec.1.1.isSome then (ec.1.1).getD 0 else ec.2.1,
       if ec.1.2.isSome then (ec.1.2).getD 0 else ec.2.2)))

/-- The fixed state-space model of _kalman_smoothing (dt = 1). -/
noncomputable def kalmanF : Mat2 := ((1, 1), (0, 1))

/-- Observation matrix H = [[1, 0]]. -/
noncomputable def kalmanH : Vec2 := (1, 0)

/-- Process noise Q = [[0.25, 0.5], [0.5, 1]] * 0.01. -/
noncomputable def kalmanQ : Mat2 := ((0.25 * 0.01, 0.5 * 0.01), (0.5 * 0.01, 1 * 0.01))

/-- Measurement noise R = [[0.1]]. -/
noncomputable def kalmanR : ℝ := 0.1

/-- _kalman_smoothing: run the RTS smoother over every (body part,
coordinate) channel and keep the position components. -/
noncomputable def kalmanSmoothData (data : List (List Pt)) :
    Except PyErr (List (List Pt)) := do
  let nparts := (data.headD []).length
  let channels ← (List.range nparts).mapM (fun bp => do
    let xs ← rtsSmoother (data.map (fun r => (r.getD bp (0, 0)).1))
      kalmanF kalmanH kalmanQ kalmanR
    let ys ← rtsSmoother (data.map (fun r => (r.getD bp (0, 0)).2))
      kalmanF kalmanH kalmanQ kalmanR
    pure (xs.map Prod.fst, ys.map Prod.fst))
  pure ((List.range data.length).map (fun t =>
    channels.map (fun ch => (ch.1.getD t 0, ch.2.getD t 0))))

/-- constrained_data.reshape(data.shape): flatten the (x, y) pairs back
into table rows; all entries of the full-imputation result are present. -/
def ofPairs (data : List (List Pt)) : List (List Entry) :=
  data.map (fun r => r.flatMap (fun p => [some p.1, some p.2]))

/-- MouseTrackingImputer.fit_transform (src/deepof/utils.py). The input
table is linearly interpolated in place first; when full_imputation is set
and missing values remain, the pipeline builds the skeleton constraints
(raising ValueError when the interpolated table has no complete frame),
imputes the dilated NaN neighborhood (frames within 7 of a NaN frame;
restricted to that subset only when it has more than 50 frames), restores
observed values, smooths, restores observed values again, and enforces the
skeleton constraints (with no restore afterwards). The sklearn
IterativeImputer call is external library code, passed in as the function
argument `impute`. The returned pair is (result or raised error, state of
the mutated input table at function exit), so the in-place interpolation
of the input is visible even when an error is raised. A fresh imputer is
created per call, so the constraint cache is always empty here. -/
noncomputable def fitTransform (fullImputation : Bool) (limit maxSamples : ℕ)
    (adj : List (String × List String)) (cols : List String)
    (impute : List (List (Entry × Entry)) → List (List Pt))
    (rows : List (List Entry)) :
    Except PyErr (List (List Entry)) × List (List Entry) :=
  let d1 := interpolateTable limit rows
  if fullImputation && d1.any (fun r => r.any Option.isNone) then
    ((do
      let cons ← initConstraints maxSamples adj cols d1
      let reshaped := d1.map toPairRow
      let originalPos := reshaped.map (fun r => r.map (fun e => (e.1.isSome, e.2.isSome)))
      let nanFlags := (List.range reshaped.length).map (fun f =>
        (List.range reshaped.length).any (fun g =>
          (decide (g ≤ f + 7 ∧ f ≤ g + 7)) &&
          (reshaped.getD g []).any (fun e => e.1.isNone || e.2.isNone)))
      let snippets := (reshaped.zip nanFlags).filterMap
        (fun p => if p.2 then some p.1 else none)
      let completed : List (List Pt) :=
        if snippets.length > 50 then scatterImputed reshaped nanFlags (impute snippets)
        else impute reshaped
      let restored := restoreObserved reshaped completed
      let smoothed ← kalmanSmoothData restored
      let restored2 := restoreObserved reshaped smoothed
      let constrained := enforceSkeletonConstraints restored2 cons originalPos 0.1 0.5
      pure (ofPairs constrained)), d1)
  else (.ok d1, d1)

/-- The per-table body of iterative_imputation (src/deepof/utils.py): the
call to fit_transform sits in a try block whose except ValueError clause
only warns and skips, leaving the output table for that experiment at its
original (deep-copied) value; other exceptions propagate to the caller. -/
noncomputable def imputeTable (fullImputation : Bool) (limit maxSamples : ℕ)
    (adj : List (String × List String)) (cols : List String)
    (impute : List (List (Entry × Entry)) → List (List Pt))
    (rows : List (List Entry)) : Except PyErr (List (List Entry)) :=
  match (fitTransform fullImputation limit maxSamples adj cols impute rows).1 with
  | .ok res => .ok res
  | .error (.valueError _) => .ok rows
  | .error e => .error e

/-- A trivial imputer argument for concrete runs (never invoked on the
error path). -/
noncomputable def trivialImpute : List (List (Entry × Entry)) → List (List Pt) :=
  fun d => d.map unwrapRow

/-- What the gap filler actually does to position `i` of a column: valid
entries survive unchanged, and a missing entry is filled (with its
np.interp value) exactly when a valid entry lies within `limit` positions
on at least one side. -/
def fillRuleProp (xs : Col) (limit i : ℕ) : Prop :=
  ((xs.getD i none).isSome →
    (interpolateColumn xs limit).getD i none = xs.getD i none) ∧
  (xs.getD i none = none →
    (((interpolateColumn xs limit).getD i none).isSome ↔
      ∃ j, j < xs.length ∧ (xs.getD j none).isSome ∧
        ((j ≤ i ∧ i - j ≤ limit) ∨ (i ≤ j ∧ j - i ≤ limit))) ∧
    (fillable xs limit i = true →
      (interpolateColumn xs limit).getD i none = some (interpVal xs i)))

end DeepOF

namespace DeepOF

lemma interpolateColumn_getD (xs : Col) (limit i : ℕ) (hi : i < xs.length) :
    (interpolateColumn xs limit).getD i none =
      match xs.getD i none with
      | some v => some v
      | none => if fillable xs limit i then some (interpVal xs i) else none := by
  unfold interpolateColumn
  rw [List.getD_eq_getElem?_getD, List.getElem?_map, List.getElem?_range hi]
  rfl

lemma fillable_iff (xs : Col) (limit i : ℕ) :
    fillable xs limit i = true ↔
      ∃ j, j < xs.length ∧ (xs.getD j none).isSome ∧
        ((j ≤ i ∧ i - j ≤ limit) ∨ (i ≤ j ∧ j - i ≤ limit)) := by
  unfold fillable validIdxs
  simp only [Bool.or_eq_true, List.any_eq_true, List.mem_filter, List.mem_range,
    decide_eq_true_eq]
  constructor
  · rintro (⟨j, ⟨hj, hs⟩, hc⟩ | ⟨j, ⟨hj, hs⟩, hc⟩)
    · exact ⟨j, hj, hs, Or.inl hc⟩
    · exact ⟨j, hj, hs, Or.inr hc⟩
  · rintro ⟨j, hj, hs, (hc | hc)⟩
    · exact Or.inl ⟨j, ⟨hj, hs⟩, hc⟩
    · exact Or.inr ⟨j, ⟨hj, hs⟩, hc⟩

lemma interpolateColumn_length (xs : Col) (limit : ℕ) :
    (interpolateColumn xs limit).length = xs.length := by
  unfold interpolateColumn
  rw [List.length_map, List.length_range]

lemma range_map_getD {α : Type} (l : List α) (d : α) :
    (List.range l.length).map (fun i => l.getD i d) = l := by
  induction l with
  | nil => rfl
  | cons a t ih =>
    rw [List.length_cons, List.range_succ_eq_map, List.map_cons, List.map_map]
    simp only [Function.comp_def, List.getD_cons_zero, List.getD_cons_succ]
    rw [ih]

lemma getD_map_fst {α β : Type} (f : α → β) (l : List α) (n : ℕ) (d : α) :
    (l.map f).getD n (f d) = f (l.getD n d) := by
  induction l generalizing n with
  | nil => rfl
  | cons a t ih =>
    cases n with
    | zero => rfl
    | succ m => simp only [List.map_cons, List.getD_cons_succ]; exact ih m

lemma applyConstraint_mask_fst (tol cf : ℝ) (r1 r2 : List (Bool × Bool))
    (h : r1.map Prod.fst = r2.map Prod.fst) (row : List Pt) (c : ℕ × ℕ × ℝ) :
    applyConstraint tol cf r1 row c = applyConstraint tol cf r2 row c := by
  have e1 : (r1.getD c.1 (false, false)).1 = (r2.getD c.1 (false, false)).1 := by
    rw [← getD_map_fst Prod.fst r1, ← getD_map_fst Prod.fst r2, h]
  have e2 : (r1.getD c.2.1 (false, false)).1 = (r2.getD c.2.1 (false, false)).1 := by
    rw [← getD_map_fst Prod.fst r1, ← getD_map_fst Prod.fst r2, h]
  unfold applyConstraint
  simp only [e1, e2]

lemma enforceFrame_mask_fst (tol cf : ℝ) (r1 r2 : List (Bool × Bool))
    (h : r1.map Prod.fst = r2.map Prod.fst) (cs : List (ℕ × ℕ × ℝ)) (row : List Pt) :
    enforceFrame tol cf cs r1 row = enforceFrame tol cf cs r2 row := by
  induction cs generalizing row with
  | nil => rfl
  | cons c cs ih =>
    unfold enforceFrame
    simp only [List.foldl_cons]
    rw [applyConstraint_mask_fst tol cf r1 r2 h row c]
    exact ih _

lemma all_fst_of_map_fst_eq (r1 r2 : List (Bool × Bool))
    (h : r1.map Prod.fst = r2.map Prod.fst) :
    r1.all (fun q => q.1) = r2.all (fun q => q.1) := by
  induction r1 generalizing r2 with
  | nil =>
    cases r2 with
    | nil => rfl
    | cons b s => simp at h
  | cons a t ih =>
    cases r2 with
    | nil => simp at h
    | cons b s =>
      simp only [List.map_cons, List.cons.injEq] at h
      simp only [List.all_cons, h.1, ih s h.2]

lemma dist2_same_y (a b y : ℝ) : dist2 (a, y) (b, y) = |a - b| := by
  unfold dist2
  rw [sub_self y]
  rw [show ((0:ℝ)) ^ 2 = 0 by norm_num, add_zero]
  exact Real.sqrt_sq_eq_abs _

lemma getD_set_ne {α : Type} (l : List α) (m n : ℕ) (v d : α) (h : m ≠ n) :
    (l.set m v).getD n d = l.getD n d := by
  rw [List.getD_eq_getElem?_getD, List.getD_eq_getElem?_getD, List.getElem?_set_ne h]

lemma getD_set_eq {α : Type} (l : List α) (m : ℕ) (v d : α) (h : m < l.length) :
    (l.set m v).getD m d = v := by
  rw [List.getD_eq_getElem?_getD, List.getElem?_set_eq_of_lt v h]
  rfl

lemma dist2_nonneg (p q : Pt) : 0 ≤ dist2 p q := Real.sqrt_nonneg _

lemma dist2_scale_diff (p q p' q' : Pt) (k : ℝ)
    (h1 : p'.1 - q'.1 = k * (p.1 - q.1)) (h2 : p'.2 - q'.2 = k * (p.2 - q.2)) :
    dist2 p' q' = |k| * dist2 p q := by
  unfold dist2
  rw [h1, h2, mul_pow, mul_pow, ← mul_add, Real.sqrt_mul (sq_nonneg k),
    Real.sqrt_sq_eq_abs]

lemma abs_scale_violation_le (d d0 cf : ℝ) (hd : 0 ≤ d) (hd0 : 0 ≤ d0)
    (hcf0 : 0 ≤ cf) (hcf2 : cf ≤ 2) :
    abs (abs (1 - (d - d0) / (2 * d + 0.00001) * cf) * d - d0) ≤ abs (d - d0) := by
  have hden : (0:ℝ) < 2 * d + 0.00001 := by linarith
  set t := d / (2 * d + 0.00001) * cf with ht
  have ht0 : 0 ≤ t := mul_nonneg (div_nonneg hd hden.le) hcf0
  have ht1 : t < 1 := by
    have hdd : d / (2 * d + 0.00001) < 1 / 2 := by
      rw [div_lt_div_iff₀ hden (by norm_num : (0:ℝ) < 2)]
      linarith
    have h2 : t ≤ d / (2 * d + 0.00001) * 2 :=
      mul_le_mul_of_nonneg_left hcf2 (div_nonneg hd hden.le)
    nlinarith
  have hcle : (d - d0) / (2 * d + 0.00001) * cf ≤ t := by
    rw [ht]
    apply mul_le_mul_of_nonneg_right _ hcf0
    rw [div_le_div_iff_of_pos_right hden]
    linarith
  have habs1 : |1 - (d - d0) / (2 * d + 0.00001) * cf| =
      1 - (d - d0) / (2 * d + 0.00001) * cf := by
    rw [abs_of_nonneg]
    linarith
  rw [habs1]
  have key : (1 - (d - d0) / (2 * d + 0.00001) * cf) * d - d0 = (d - d0) * (1 - t) := by
    rw [ht]
    field_simp
    ring
  rw [key, abs_mul, abs_of_nonneg (by linarith : (0:ℝ) ≤ 1 - t)]
  exact mul_le_of_le_one_right (abs_nonneg _) (by linarith)

lemma applyConstraint_violation_le (tol cf : ℝ) (maskRow : List (Bool × Bool))
    (row : List Pt) (i j : ℕ) (d0 : ℝ)
    (hi : i < row.length) (hj : j < row.length) (hij : i ≠ j)
    (hd0 : 0 ≤ d0) (hcf0 : 0 ≤ cf) (hcf2 : cf ≤ 2) :
    violation (applyConstraint tol cf maskRow row (i, j, d0)) (i, j, d0) ≤
      violation row (i, j, d0) := by
  simp only [applyConstraint]
  by_cases hcond :
      dist2 (row.getD i (0,0)) (row.getD j (0,0)) > d0 * (1 + tol) ∨
      dist2 (row.getD i (0,0)) (row.getD j (0,0)) < d0 * (1 - tol)
  · rw [if_pos hcond]
    set p1 := row.getD i ((0:ℝ),(0:ℝ)) with hp1
    set p2 := row.getD j ((0:ℝ),(0:ℝ)) with hp2
    set c := (dist2 p1 p2 - d0) / (2 * dist2 p1 p2 + 0.00001) * cf with hc
    have hshrink := abs_scale_violation_le (dist2 p1 p2) d0 cf (dist2_nonneg p1 p2)
      hd0 hcf0 hcf2
    by_cases hm1 : (maskRow.getD i (false, false)).1 = true
    · rw [if_pos hm1]
      unfold violation
      rw [getD_set_ne row j i _ _ (Ne.symm hij), getD_set_eq row j _ _ hj]
      rw [dist2_scale_diff p1 p2 p1
        (p2.1 + 2 * c * ((p1.1 + p2.1) / 2 - p2.1), p2.2 + 2 * c * ((p1.2 + p2.2) / 2 - p2.2))
        (1 - c) (by ring) (by ring)]
      exact hshrink
    · rw [if_neg hm1]
      by_cases hm2 : (maskRow.getD j (false, false)).1 = true
      · rw [if_pos hm2]
        unfold violation
        rw [getD_set_eq row i _ _ hi, getD_set_ne row i j _ _ hij]
        rw [dist2_scale_diff p1 p2
          (p1.1 + 2 * c * ((p1.1 + p2.1) / 2 - p1.1), p1.2 + 2 * c * ((p1.2 + p2.2) / 2 - p1.2))
          p2 (1 - c) (by ring) (by ring)]
        exact hshrink
      · rw [if_neg hm2]
        unfold violation
        rw [getD_set_ne _ j i _ _ (Ne.symm hij),
          getD_set_eq row i _ _ hi,
          getD_set_eq _ j _ _ (by rw [List.length_set]; exact hj)]
        rw [dist2_scale_diff p1 p2
          (p1.1 + c * ((p1.1 + p2.1) / 2 - p1.1), p1.2 + c * ((p1.2 + p2.2) / 2 - p1.2))
          (p2.1 + c * ((p1.1 + p2.1) / 2 - p2.1), p2.2 + c * ((p1.2 + p2.2) / 2 - p2.2))
          (1 - c) (by ring) (by ring)]
        exact hshrink
  · rw [if_neg hcond]

/-- A column with no missing entry is a fixed point of the gap filler. -/
lemma interpolateColumn_of_complete (ys : Col) (limit : ℕ)
    (h : ys.all Option.isSome) : interpolateColumn ys limit = ys := by
  unfold interpolateColumn
  have hcong : ∀ i ∈ List.range ys.length,
      (match ys.getD i none with
       | some v => some v
       | none => if fillable ys limit i then some (interpVal ys i) else none) =
      ys.getD i none := by
    intro i hi
    rw [List.mem_range] at hi
    rcases hy : ys.getD i none with _ | v
    · exfalso
      have hg : ys.getD i none = ys[i] := List.getD_eq_getElem ys none hi
      have hsome := List.all_eq_true.mp h ys[i] (List.getElem_mem hi)
      rw [hg] at hy
      rw [hy] at hsome
      exact Bool.noConfusion hsome
    · rfl
  rw [List.map_congr_left hcong]
  exact range_map_getD ys none

lemma pyRangeAux_congr (stop step : ℕ) (h : step ≠ 0) :
    ∀ fuel1 fuel2 start, stop - start ≤ fuel1 → stop - start ≤ fuel2 →
      pyRangeAux fuel1 start stop step = pyRangeAux fuel2 start stop step := by
  intro fuel1
  induction fuel1 with
  | zero =>
    intro fuel2 start h1 _h2
    cases fuel2 with
    | zero => rfl
    | succ f2 =>
      unfold pyRangeAux
      rw [if_neg (by omega)]
  | succ f1 ih =>
    intro fuel2 start h1 h2
    cases fuel2 with
    | zero =>
      unfold pyRangeAux
      rw [if_neg (by omega)]
    | succ f2 =>
      unfold pyRangeAux
      by_cases hlt : start < stop
      · rw [if_pos hlt, if_pos hlt]
        rw [ih f2 (start + step) (by omega) (by omega)]
      · rw [if_neg hlt, if_neg hlt]

lemma pyRange_eq (start stop step : ℕ) (h : step ≠ 0) :
    pyRange start stop step =
      if start < stop then start :: pyRange (start + step) stop step else [] := by
  unfold pyRange
  rw [if_neg h, if_neg h]
  by_cases hlt : start < stop
  · rw [if_pos hlt]
    rcases hg : stop - start with _ | g
    · omega
    · show pyRangeAux (g + 1) start stop step =
        start :: pyRangeAux (stop - (start + step)) (start + step) stop step
      rw [show pyRangeAux (g + 1) start stop step =
        if start < stop then start :: pyRangeAux g (start + step) stop step else []
        from rfl]
      rw [if_pos hlt]
      congr 1
      exact pyRangeAux_congr stop step h g (stop - (start + step)) (start + step)
        (by omega) (by omega)
  · rw [if_neg hlt]
    rcases hg : stop - start with _ | g
    · rfl
    · omega

lemma pyRange_length (step : ℕ) (h : step ≠ 0) :
    ∀ n start stop, stop - start = n →
      (pyRange start stop step).length = (n + step - 1) / step := by
  intro n
  induction n using Nat.strong_induction_on with
  | _ n ih =>
    intro start stop hn
    rw [pyRange_eq start stop step h]
    by_cases hlt : start < stop
    · rw [if_pos hlt]
      simp only [List.length_cons]
      rw [ih (stop - (start + step)) (by omega) (start + step) stop rfl]
      by_cases hle : stop - start ≤ step
      · have e1 : stop - (start + step) = 0 := by omega
        rw [e1]
        have e2 : (0 + step - 1) / step = 0 := Nat.div_eq_of_lt (by omega)
        rw [e2]
        have e3 : (n + step - 1) / step = 1 :=
          Nat.div_eq_of_lt_le (by omega) (by omega)
        rw [e3]
      · have e1 : stop - (start + step) = n - step := by omega
        rw [e1]
        have e2 : n - step + step - 1 = n - 1 := by omega
        have e3 : n + step - 1 = (n - 1) + step := by omega
        rw [e2, e3, Nat.add_div_right _ (Nat.pos_of_ne_zero h)]
    · rw [if_neg hlt]
      have hz : n = 0 := by omega
      rw [hz, List.length_nil]
      exact (Nat.div_eq_of_lt (by omega)).symm

lemma partDist_symm (cols : List String) (r : List Entry) (p1 p2 : String) :
    partDist cols r p1 p2 = partDist cols r p2 p1 := by
  unfold partDist
  congr 1
  ring

lemma meanPartDist_symm (cols : List String) (frames : List (List Entry))
    (p1 p2 : String) :
    meanPartDist cols frames p1 p2 = meanPartDist cols frames p2 p1 := by
  unfold meanPartDist
  congr 2
  exact List.map_congr_left (fun r _ => partDist_symm cols r p1 p2)

lemma constraints_mirrored (adj : List (String × List String)) (cols : List String)
    (sampled : List (List Entry)) (hsym : AdjSymm adj) (i j : ℕ) (d : ℝ)
    (hmem : (i, j, d) ∈ skeletonConstraintsOf adj cols sampled) :
    (j, i, d) ∈ skeletonConstraintsOf adj cols sampled := by
  unfold skeletonConstraintsOf at hmem ⊢
  rw [List.mem_flatMap] at hmem ⊢
  obtain ⟨e, he, hmem2⟩ := hmem
  rw [List.mem_filterMap] at hmem2
  obtain ⟨p2, hp2, hf⟩ := hmem2
  rcases h1 : dictFind (bodyPartIndices cols) e.1 with _ | i1
  · rw [h1] at hf
    exact absurd hf (by
      rcases dictFind (bodyPartIndices cols) p2 with _ | i2 <;> simp)
  rcases h2 : dictFind (bodyPartIndices cols) p2 with _ | i2
  · rw [h1, h2] at hf
    exact absurd hf (by simp)
  rw [h1, h2] at hf
  simp only [Option.some.injEq, Prod.mk.injEq] at hf
  obtain ⟨hi1, hi2, hd⟩ := hf
  obtain ⟨e2, he2, he2q, he2mem⟩ := hsym e he p2 hp2
  refine ⟨e2, he2, ?_⟩
  rw [List.mem_filterMap]
  refine ⟨e.1, he2mem, ?_⟩
  rw [he2q, h2, h1]
  simp only [Option.some.injEq, Prod.mk.injEq]
  exact ⟨hi2, hi1, by rw [← hd]; exact meanPartDist_symm cols sampled p2 e.1⟩

end DeepOF

/-- C2, counterexample. The claim states that a maximal missing run
abutting a track boundary, and a maximal missing run longer than
max_gap_length, are left entirely missing. With pandas
limit_direction="both" this is false: in the column [NaN, 1] with limit 3
the boundary-abutting entry 0 is filled (with the clamped value 1), and in
the column [0, NaN, NaN, NaN, NaN, 5] with limit 3 the run of length 4 > 3
is filled (every position is within 3 of a valid neighbor on one side). -/
theorem C2_counterexample :
    ((DeepOF.interpolateColumn [none, some 1] 3).getD 0 none).isSome = true ∧
    ((DeepOF.interpolateColumn
        [some 0, none, none, none, none, some 5] 3).getD 1 none).isSome = true ∧
    ((DeepOF.interpolateColumn
        [some 0, none, none, none, none, some 5] 3).getD 4 none).isSome = true := by
  decide

/-- C2, amended. For every column and every position i: an originally
valid entry is returned unchanged, and a missing entry is filled if and
only if some valid entry lies at most max_gap_length positions before it
or at most max_gap_length positions after it (so interior runs of length
at most the limit are fully closed by interpolation between their
neighbors, but runs of length up to twice the limit are fully closed as
well, longer runs are filled limit-deep from each side, and runs abutting
a boundary are filled, with the nearest valid value, up to limit positions
from their valid side); every filled entry receives its np.interp value
(linear interpolation between the nearest valid neighbors, clamped at the
boundaries). -/
theorem C2_amended_fill_rule (xs : DeepOF.Col) (limit i : ℕ)
    (hi : i < xs.length) : DeepOF.fillRuleProp xs limit i := by
  unfold DeepOF.fillRuleProp
  rw [DeepOF.interpolateColumn_getD xs limit i hi]
  rcases hy : xs.getD i none with _ | v
  · refine ⟨fun hs => by simp at hs, fun _ => ⟨?_, fun hf => by rw [hf]; rfl⟩⟩
    rcases hf : DeepOF.fillable xs limit i with _ | _
    · simp only [if_neg (by simp [hf] : ¬ DeepOF.fillable xs limit i = true)]
      rw [← DeepOF.fillable_iff]
      simp [hf]
    · simp only [if_pos hf]
      rw [← DeepOF.fillable_iff]
      simp [hf]
  · exact ⟨fun _ => rfl, fun hn => Option.noConfusion hn⟩

/-- Witness for C2_amended_fill_rule at the concrete column [0, NaN, 2]
with limit 3 and position 1. -/
theorem C2_amended_fill_rule_witness :
    DeepOF.fillRuleProp [some 0, none, some 2] 3 1 :=
  C2_amended_fill_rule [some 0, none, some 2] 3 1 (by decide)

/-- C7, counterexample. The claim states GapFiller is idempotent. It is
not: in the column [0, NaN x 7, 8] with limit 3 a single pass leaves the
middle position 4 missing (it is 4 positions away from a valid neighbor on
both sides), but makes positions 3 and 5 valid, so a second pass fills
position 4 and yields a different column. -/
theorem C7_counterexample :
    DeepOF.interpolateColumn
        (DeepOF.interpolateColumn
          [some 0, none, none, none, none, none, none, none, some 8] 3) 3 ≠
      DeepOF.interpolateColumn
        [some 0, none, none, none, none, none, none, none, some 8] 3 := by
  intro h
  have h1 : ((DeepOF.interpolateColumn
      (DeepOF.interpolateColumn
        [some 0, none, none, none, none, none, none, none, some 8] 3) 3).getD
      4 none).isSome = true := by decide
  rw [h] at h1
  have h2 : ((DeepOF.interpolateColumn
      [some 0, none, none, none, none, none, none, none, some 8] 3).getD
      4 none).isSome = false := by decide
  rw [h1] at h2
  exact Bool.noConfusion h2

/-- C7, amended. GapFiller is idempotent on every column on which one
application closes every gap (in particular whenever every interior
missing run has length at most twice the limit and every boundary run has
length at most the limit): a second application then changes nothing. -/
theorem C7_amended_idempotent_when_complete (xs : DeepOF.Col) (limit : ℕ)
    (h : (DeepOF.interpolateColumn xs limit).all Option.isSome) :
    DeepOF.interpolateColumn (DeepOF.interpolateColumn xs limit) limit =
      DeepOF.interpolateColumn xs limit :=
  DeepOF.interpolateColumn_of_complete _ _ h

/-- Witness for C7_amended_idempotent_when_complete on the column
[0, NaN, 2] with limit 3, whose single gap is closed by one pass. -/
theorem C7_amended_idempotent_witness :
    DeepOF.interpolateColumn
        (DeepOF.interpolateColumn [some 0, none, some 2] 3) 3 =
      DeepOF.interpolateColumn [some 0, none, some 2] 3 :=
  C7_amended_idempotent_when_complete [some 0, none, some 2] 3 (by decide)

/-- C1, evaluation at the failing input. In a frame whose body parts 0 and
1 are both fully observed (presence flags (true, true)) while part 2 is
not, the constraint (0, 1, expected 1) is out of tolerance (current
distance 4), and enforce_skeleton_constraints_numba moves part 1 away from
its originally observed position (4, 0): the first branch of the
correction only checks that part 0 is observed before moving part 1, and
the pipeline never restores observed values after this stage. The claim
states that an entry flagged present in the presence mask is never
overwritten by any stage; the code overwrites it here. -/
theorem C1_code_bug_observed_entry_moved :
    (([[(true, true), (true, true), (false, false)]] :
        List (List (Bool × Bool))).getD 0 []).getD 1 (false, false) = (true, true) ∧
    ((DeepOF.enforceSkeletonConstraints [[((0:ℝ), (0:ℝ)), (4, 0), (9, 9)]] [(0, 1, 1)]
        [[(true, true), (true, true), (false, false)]] 0.1 0.5).getD 0 []).getD 1
        ((0:ℝ), (0:ℝ)) ≠ (4, 0) := by
  refine ⟨rfl, ?_⟩
  have hd : DeepOF.dist2 ((0:ℝ), (0:ℝ)) ((4:ℝ), (0:ℝ)) = 4 := by
    unfold DeepOF.dist2
    norm_num
    rw [show (16:ℝ) = 4 ^ 2 by norm_num]
    exact Real.sqrt_sq (by norm_num)
  unfold DeepOF.enforceSkeletonConstraints DeepOF.enforceFrame DeepOF.applyConstraint
  simp only [List.zip_cons_cons, List.zip_nil_right, List.map_cons, List.map_nil,
    List.foldl_cons, List.foldl_nil]
  rw [show (([(true, true), (true, true), (false, false)] : List (Bool × Bool)).all
      fun q => q.1) = false from rfl]
  simp only [Bool.false_eq_true, if_false]
  rw [show ∀ x : List DeepOF.Pt, ([x] : List (List DeepOF.Pt)).getD 0 [] = x
      from fun x => rfl]
  rw [show ([((0:ℝ), (0:ℝ)), (4, 0), (9, 9)] : List DeepOF.Pt).getD 0 (0, 0) =
      ((0:ℝ), (0:ℝ)) from rfl]
  rw [show ([((0:ℝ), (0:ℝ)), (4, 0), (9, 9)] : List DeepOF.Pt).getD 1 (0, 0) =
      ((4:ℝ), (0:ℝ)) from rfl]
  rw [hd]
  rw [if_pos (Or.inl (by norm_num : (4:ℝ) > 1 * (1 + 0.1)))]
  rw [show (([(true, true), (true, true), (false, false)] : List (Bool × Bool)).getD 0
      (false, false)).1 = true from rfl]
  rw [if_pos rfl]
  rw [show ∀ v : DeepOF.Pt, (([((0:ℝ), (0:ℝ)), (4, 0), (9, 9)] :
      List DeepOF.Pt).set 1 v).getD 1 (0, 0) = v from fun v => rfl]
  intro hEq
  have hx := congrArg Prod.fst hEq
  norm_num at hx

/-- C4, counterexample. Two constraints share body part 1 in a frame with
parts at (0,0), (10,0), (20,0), none observed. The pass first corrects
constraint (0, 1, expected 8), reducing its violation from 2, but then
correcting constraint (1, 2, expected 2) drags part 1 forward again, and
after the whole pass the violation of constraint (0, 1, 8) is about 2.53,
which exceeds its pre-pass violation 2. The claim states that every
constraint the pass touches ends with violation no greater than before the
pass, even when constraints share a body part; that is false. -/
theorem C4_counterexample :
    DeepOF.violation
      ((DeepOF.enforceSkeletonConstraints [[((0:ℝ), (0:ℝ)), (10, 0), (20, 0)]]
          [(0, 1, 8), (1, 2, 2)]
          [[(false, false), (false, false), (false, false)]] 0.1 0.5).getD 0 [])
      (0, 1, 8) >
    DeepOF.violation [((0:ℝ), (0:ℝ)), (10, 0), (20, 0)] (0, 1, 8) := by
  have step1 : DeepOF.applyConstraint 0.1 0.5
      [(false, false), (false, false), (false, false)]
      [((0:ℝ), (0:ℝ)), (10, 0), (20, 0)] (0, 1, 8) =
      [((500000/2000001:ℝ), (0:ℝ)), ((19500010/2000001:ℝ), (0:ℝ)), ((20:ℝ), (0:ℝ))] := by
    simp only [DeepOF.applyConstraint]
    rw [show ([((0:ℝ), (0:ℝ)), (10, 0), (20, 0)] : List DeepOF.Pt).getD 0 (0, 0) =
        ((0:ℝ), (0:ℝ)) from rfl]
    rw [show ([((0:ℝ), (0:ℝ)), (10, 0), (20, 0)] : List DeepOF.Pt).getD 1 (0, 0) =
        ((10:ℝ), (0:ℝ)) from rfl]
    rw [DeepOF.dist2_same_y]
    rw [show |(0:ℝ) - 10| = 10 from by rw [abs_of_nonpos (by norm_num)]; norm_num]
    rw [if_pos (Or.inl (by norm_num : (10:ℝ) > 8 * (1 + 0.1)))]
    rw [show (([(false, false), (false, false), (false, false)] :
        List (Bool × Bool)).getD 0 (false, false)).1 = false from rfl]
    rw [show (([(false, false), (false, false), (false, false)] :
        List (Bool × Bool)).getD 1 (false, false)).1 = false from rfl]
    simp only [Bool.false_eq_true, if_false]
    rw [show ∀ v w : DeepOF.Pt, (([((0:ℝ), (0:ℝ)), (10, 0), (20, 0)] :
        List DeepOF.Pt).set 0 v).set 1 w = [v, w, ((20:ℝ), (0:ℝ))] from fun v w => rfl]
    norm_num
  have step2 : DeepOF.applyConstraint 0.1 0.5
      [(false, false), (false, false), (false, false)]
      [((500000/2000001:ℝ), (0:ℝ)), ((19500010/2000001:ℝ), (0:ℝ)), ((20:ℝ), (0:ℝ))]
      (1, 2, 2) =
      [((500000/2000001:ℝ), (0:ℝ)),
       ((12629482460723071430/1171430300000857143:ℝ), (0:ℝ)),
       ((22220569110731142860/1171430300000857143:ℝ), (0:ℝ))] := by
    simp only [DeepOF.applyConstraint]
    rw [show ([((500000/2000001:ℝ), (0:ℝ)), ((19500010/2000001:ℝ), (0:ℝ)),
        ((20:ℝ), (0:ℝ))] : List DeepOF.Pt).getD 1 (0, 0) =
        ((19500010/2000001:ℝ), (0:ℝ)) from rfl]
    rw [show ([((500000/2000001:ℝ), (0:ℝ)), ((19500010/2000001:ℝ), (0:ℝ)),
        ((20:ℝ), (0:ℝ))] : List DeepOF.Pt).getD 2 (0, 0) = ((20:ℝ), (0:ℝ)) from rfl]
    rw [DeepOF.dist2_same_y]
    rw [show |(19500010/2000001:ℝ) - 20| = 20500010/2000001 from by
      rw [abs_of_nonpos (by norm_num)]; norm_num]
    rw [if_pos (Or.inl (by norm_num : (20500010/2000001:ℝ) > 2 * (1 + 0.1)))]
    rw [show (([(false, false), (false, false), (false, false)] :
        List (Bool × Bool)).getD 1 (false, false)).1 = false from rfl]
    rw [show (([(false, false), (false, false), (false, false)] :
        List (Bool × Bool)).getD 2 (false, false)).1 = false from rfl]
    simp only [Bool.false_eq_true, if_false]
    rw [show ∀ v w : DeepOF.Pt, (([((500000/2000001:ℝ), (0:ℝ)),
        ((19500010/2000001:ℝ), (0:ℝ)), ((20:ℝ), (0:ℝ))] :
        List DeepOF.Pt).set 1 v).set 2 w =
        [((500000/2000001:ℝ), (0:ℝ)), v, w] from fun v w => rfl]
    norm_num
  unfold DeepOF.enforceSkeletonConstraints DeepOF.enforceFrame
  simp only [List.zip_cons_cons, List.zip_nil_right, List.map_cons, List.map_nil,
    List.foldl_cons, List.foldl_nil]
  rw [show (([(false, false), (false, false), (false, false)] :
      List (Bool × Bool)).all fun q => q.1) = false from rfl]
  simp only [Bool.false_eq_true, if_false]
  rw [show ∀ x : List DeepOF.Pt, ([x] : List (List DeepOF.Pt)).getD 0 [] = x
      from fun x => rfl]
  rw [step1, step2]
  unfold DeepOF.violation
  rw [show ([((500000/2000001:ℝ), (0:ℝ)),
       ((12629482460723071430/1171430300000857143:ℝ), (0:ℝ)),
       ((22220569110731142860/1171430300000857143:ℝ), (0:ℝ))] :
      List DeepOF.Pt).getD 0 (0, 0) = ((500000/2000001:ℝ), (0:ℝ)) from rfl]
  rw [show ([((500000/2000001:ℝ), (0:ℝ)),
       ((12629482460723071430/1171430300000857143:ℝ), (0:ℝ)),
       ((22220569110731142860/1171430300000857143:ℝ), (0:ℝ))] :
      List DeepOF.Pt).getD 1 (0, 0) =
      ((12629482460723071430/1171430300000857143:ℝ), (0:ℝ)) from rfl]
  rw [show ([((0:ℝ), (0:ℝ)), (10, 0), (20, 0)] : List DeepOF.Pt).getD 0 (0, 0) =
      ((0:ℝ), (0:ℝ)) from rfl]
  rw [show ([((0:ℝ), (0:ℝ)), (10, 0), (20, 0)] : List DeepOF.Pt).getD 1 (0, 0) =
      ((10:ℝ), (0:ℝ)) from rfl]
  rw [DeepOF.dist2_same_y, DeepOF.dist2_same_y]
  rw [show |(500000/2000001:ℝ) - 12629482460723071430/1171430300000857143| =
      12629482460723071430/1171430300000857143 - 500000/2000001 from by
    rw [abs_of_nonpos (by norm_num)]; norm_num]
  rw [show |(0:ℝ) - 10| = 10 from by rw [abs_of_nonpos (by norm_num)]; norm_num]
  rw [abs_of_nonneg (by norm_num), abs_of_nonneg (by norm_num)]
  norm_num

/-- C4, amended. For a frame containing at least one reconstructed point
and a constraint list consisting of a single constraint (i, j, expected),
with any tolerance, a correction factor between 0 and 2 (the source uses
0.5), a nonnegative expected distance, and valid distinct part indices,
the violation of that constraint after the single pass is no greater than
before it. The restriction to a single constraint (equivalently, to
constraints that do not interact) is forced by the counterexample: when a
later constraint shares a body part, its correction can increase the
violation of an earlier constraint. -/
theorem C4_amended_single_constraint_no_increase (tol cf : ℝ)
    (maskRow : List (Bool × Bool)) (row : List DeepOF.Pt) (i j : ℕ) (d0 : ℝ)
    (hi : i < row.length) (hj : j < row.length) (hij : i ≠ j)
    (hd0 : 0 ≤ d0) (hcf0 : 0 ≤ cf) (hcf2 : cf ≤ 2) :
    DeepOF.violation
      ((DeepOF.enforceSkeletonConstraints [row] [(i, j, d0)] [maskRow] tol cf).getD 0 [])
      (i, j, d0) ≤
    DeepOF.violation row (i, j, d0) := by
  unfold DeepOF.enforceSkeletonConstraints DeepOF.enforceFrame
  simp only [List.zip_cons_cons, List.zip_nil_right, List.map_cons, List.map_nil,
    List.foldl_cons, List.foldl_nil, List.getD_cons_zero]
  by_cases hall : (maskRow.all fun q => q.1) = true
  · rw [if_pos hall]
  · rw [if_neg hall]
    exact DeepOF.applyConstraint_violation_le tol cf maskRow row i j d0 hi hj hij
      hd0 hcf0 hcf2

/-- Witness for C4_amended_single_constraint_no_increase: an unobserved
pair at (0,0) and (4,0) with expected distance 1, default tolerance 0.1
and correction factor 0.5. -/
theorem C4_amended_single_constraint_witness :
    DeepOF.violation
      ((DeepOF.enforceSkeletonConstraints [[((0:ℝ), (0:ℝ)), (4, 0)]] [(0, 1, 1)]
          [[(false, false), (false, false)]] 0.1 0.5).getD 0 [])
      (0, 1, 1) ≤
    DeepOF.violation [((0:ℝ), (0:ℝ)), (4, 0)] (0, 1, 1) :=
  C4_amended_single_constraint_no_increase 0.1 0.5 [(false, false), (false, false)]
    [((0:ℝ), (0:ℝ)), (4, 0)] 0 1 1 (by norm_num) (by norm_num) (by norm_num)
    (by norm_num) (by norm_num) (by norm_num)

/-- C10. The constraint enforcement depends only on the x-components of
the presence mask: two masks with identical x-components (maskFst) but
arbitrary y-components yield identical outputs for every track, constraint
set, tolerance and correction factor, because both the frame-skipping test
and the anchor-selection tests read index 0 of each mask pair only. -/
theorem C10_enforcement_reads_only_x_flags (data : List (List DeepOF.Pt))
    (cons : List (ℕ × ℕ × ℝ)) (m1 m2 : List (List (Bool × Bool))) (tol cf : ℝ)
    (h : DeepOF.maskFst m1 = DeepOF.maskFst m2) :
    DeepOF.enforceSkeletonConstraints data cons m1 tol cf =
      DeepOF.enforceSkeletonConstraints data cons m2 tol cf := by
  induction data generalizing m1 m2 with
  | nil => rfl
  | cons d ds ih =>
    cases m1 with
    | nil =>
      have : m2 = [] := by
        unfold DeepOF.maskFst at h
        exact List.map_eq_nil_iff.mp h.symm
      rw [this]
    | cons r1 t1 =>
      cases m2 with
      | nil =>
        exact absurd h (by
          unfold DeepOF.maskFst
          simp)
      | cons r2 t2 =>
        unfold DeepOF.maskFst at h
        simp only [List.map_cons, List.cons.injEq] at h
        unfold DeepOF.enforceSkeletonConstraints
        simp only [List.zip_cons_cons, List.map_cons]
        have hall := DeepOF.all_fst_of_map_fst_eq r1 r2 h.1
        have hfr := DeepOF.enforceFrame_mask_fst tol cf r1 r2 h.1 cons d
        have htail := ih t1 t2 h.2
        unfold DeepOF.enforceSkeletonConstraints at htail
        rw [hall, hfr, htail]

/-- Witness for C10_enforcement_reads_only_x_flags: two masks over one
frame and two parts that agree on all x-flags but differ on every
y-flag. -/
theorem C10_witness :
    DeepOF.enforceSkeletonConstraints [[((0:ℝ), (0:ℝ)), (4, 0)]] [(0, 1, 1)]
        [[(true, true), (false, false)]] 0.1 0.5 =
      DeepOF.enforceSkeletonConstraints [[((0:ℝ), (0:ℝ)), (4, 0)]] [(0, 1, 1)]
        [[(true, false), (false, true)]] 0.1 0.5 :=
  C10_enforcement_reads_only_x_flags [[((0:ℝ), (0:ℝ)), (4, 0)]] [(0, 1, 1)]
    [[(true, true), (false, false)]] [[(true, false), (false, true)]] 0.1 0.5
    (by decide)

/-- C5, counterexample. For the undirected single-edge graph A - B
(networkx adjacency stores both directions) over a track whose body-part
set contains both A and B, the constraint list built by
_initialize_constraints has two entries, (1, 2, d) and (2, 1, d), one per
adjacency direction, not one per undirected edge as the claim states. -/
theorem C5_counterexample :
    (DeepOF.skeletonConstraintsOf [("A", ["B"]), ("B", ["A"])]
      ["Row", "Row", "A", "A", "B", "B"]
      (DeepOF.sampledFrames 100
        [[some 0, some 0, some 0, some 0, some 3, some 4]])).length = 2 ∧
    (DeepOF.skeletonConstraintsOf [("A", ["B"]), ("B", ["A"])]
      ["Row", "Row", "A", "A", "B", "B"]
      (DeepOF.sampledFrames 100
        [[some 0, some 0, some 0, some 0, some 3, some 4]])).map
      (fun c => (c.1, c.2.1)) = [(1, 2), (2, 1)] := by
  constructor
  · rfl
  · rfl

/-- C5, amended. The builder emits one constraint per directed adjacency
entry, so for a symmetric (undirected) connectivity every undirected edge
with both endpoints in the body-part set yields exactly the mirrored pair:
whenever (i, j, d) is in the constraint list, so is (j, i, d) with the
same expected distance. -/
theorem C5_amended_mirrored_pairs (adj : List (String × List String))
    (cols : List String) (sampled : List (List DeepOF.Entry))
    (hsym : DeepOF.AdjSymm adj) (i j : ℕ) (d : ℝ)
    (hmem : (i, j, d) ∈ DeepOF.skeletonConstraintsOf adj cols sampled) :
    (j, i, d) ∈ DeepOF.skeletonConstraintsOf adj cols sampled :=
  DeepOF.constraints_mirrored adj cols sampled hsym i j d hmem

/-- Witness for C5_amended_mirrored_pairs on the single-edge graph A - B. -/
theorem C5_amended_witness :
    (2, 1, DeepOF.meanPartDist ["Row", "Row", "A", "A", "B", "B"]
        (DeepOF.sampledFrames 100
          [[some 0, some 0, some 0, some 0, some 3, some 4]]) "A" "B") ∈
      DeepOF.skeletonConstraintsOf [("A", ["B"]), ("B", ["A"])]
        ["Row", "Row", "A", "A", "B", "B"]
        (DeepOF.sampledFrames 100
          [[some 0, some 0, some 0, some 0, some 3, some 4]]) := by
  apply C5_amended_mirrored_pairs _ _ _ (by decide) 1 2
  rw [show DeepOF.skeletonConstraintsOf [("A", ["B"]), ("B", ["A"])]
      ["Row", "Row", "A", "A", "B", "B"]
      (DeepOF.sampledFrames 100
        [[some 0, some 0, some 0, some 0, some 3, some 4]]) =
      [(1, 2, DeepOF.meanPartDist ["Row", "Row", "A", "A", "B", "B"]
        (DeepOF.sampledFrames 100
          [[some 0, some 0, some 0, some 0, some 3, some 4]]) "A" "B"),
       (2, 1, DeepOF.meanPartDist ["Row", "Row", "A", "A", "B", "B"]
        (DeepOF.sampledFrames 100
          [[some 0, some 0, some 0, some 0, some 3, some 4]]) "B" "A")]
      from rfl]
  exact List.mem_cons_self _ _

set_option maxRecDepth 10000 in
/-- C6, counterexample. A track with 199 complete frames gets stride
max(1, 199 / 100) = 1, so all 199 complete frames are sampled — more than
max_samples = 100, contradicting the claim that at most max_samples frames
are ever sampled. -/
theorem C6_counterexample :
    (DeepOF.sampledFrames 100 (List.replicate 199 [some (0:ℝ)])).length = 199 ∧
    ¬ (DeepOF.sampledFrames 100 (List.replicate 199 [some (0:ℝ)])).length ≤ 100 := by
  decide

/-- C6, amended. The sampler keeps every stride-th complete frame with
stride = max(1, total / max_samples); the number of sampled frames is
ceil(total / stride) = (total + stride - 1) / stride, which can exceed
max_samples (for max_samples = 100 it is largest when total = 199, where
all 199 complete frames are sampled) but never exceeds 199. -/
theorem C6_amended_sampling_count (rows : List (List DeepOF.Entry))
    (h : 1 ≤ (DeepOF.completeFrames rows).length) :
    (DeepOF.sampledFrames 100 rows).length =
      ((DeepOF.completeFrames rows).length +
        max 1 ((DeepOF.completeFrames rows).length / 100) - 1) /
        max 1 ((DeepOF.completeFrames rows).length / 100) ∧
    (DeepOF.sampledFrames 100 rows).length ≤ 199 := by
  have hs0 : max 1 ((DeepOF.completeFrames rows).length / 100) ≠ 0 := by
    have := Nat.le_max_left 1 ((DeepOF.completeFrames rows).length / 100)
    omega
  have hlen : (DeepOF.sampledFrames 100 rows).length =
      ((DeepOF.completeFrames rows).length +
        max 1 ((DeepOF.completeFrames rows).length / 100) - 1) /
        max 1 ((DeepOF.completeFrames rows).length / 100) := by
    simp only [DeepOF.sampledFrames]
    rw [List.length_map]
    rw [DeepOF.pyRange_length (max 1 ((DeepOF.completeFrames rows).length / 100)) hs0
      ((DeepOF.completeFrames rows).length) 0 ((DeepOF.completeFrames rows).length)
      (by omega)]
  refine ⟨hlen, ?_⟩
  rw [hlen]
  set t := (DeepOF.completeFrames rows).length with ht
  by_cases hc : t ≤ 199
  · have hd : t / 100 ≤ 1 := by omega
    have hm : max 1 (t / 100) = 1 := by
      rcases Nat.eq_or_lt_of_le hd with h1 | h1
      · rw [h1]
        exact max_self 1
      · have h0 : t / 100 = 0 := by omega
        rw [h0]
        exact Nat.max_eq_left (by omega)
    rw [hm]
    simp only [Nat.add_sub_cancel, Nat.div_one]
    omega
  · have hd : 2 ≤ t / 100 := by omega
    have hm : max 1 (t / 100) = t / 100 := Nat.max_eq_right (by omega)
    rw [hm]
    have hdm := Nat.div_add_mod t 100
    have hmod : t % 100 < 100 := Nat.mod_lt t (by norm_num)
    have hub : t + t / 100 - 1 ≤ 199 * (t / 100) := by omega
    calc (t + t / 100 - 1) / (t / 100) ≤ (199 * (t / 100)) / (t / 100) :=
          Nat.div_le_div_right hub
      _ = 199 := Nat.mul_div_cancel 199 (by omega)

/-- Witness for C6_amended_sampling_count on a track with 7 complete
frames: stride 1, all 7 sampled. -/
theorem C6_amended_witness :
    (DeepOF.sampledFrames 100 (List.replicate 7 [some (0:ℝ)])).length =
      ((DeepOF.completeFrames (List.replicate 7 [some (0:ℝ)])).length +
        max 1 ((DeepOF.completeFrames (List.replicate 7 [some (0:ℝ)])).length / 100) - 1) /
        max 1 ((DeepOF.completeFrames (List.replicate 7 [some (0:ℝ)])).length / 100) ∧
    (DeepOF.sampledFrames 100 (List.replicate 7 [some (0:ℝ)])).length ≤ 199 :=
  C6_amended_sampling_count (List.replicate 7 [some (0:ℝ)]) (by decide)

/-- C8. A measurement sequence of length 1 passes through
rts_smoother_numba without error: both loops are empty, the smoothed state
at the only time step is the initial filtered state, and its position
component (the first component of the returned pair) equals the single
measurement unchanged, for every model F, H, Q, R. (The initialisation
filtered_states[0] = measurements[0] broadcasts the measurement into the
velocity component as well.) -/
theorem C8_single_measurement_identity (m : ℝ) (F : DeepOF.Mat2) (H : DeepOF.Vec2)
    (Q : DeepOF.Mat2) (R : ℝ) :
    DeepOF.rtsSmoother [m] F H Q R = .ok [(m, m)] := rfl

/-- C9, counterexample. The claim states every covariance inversion in the
smoother is guarded against singularity so that a singular covariance
never causes an unguarded inversion failure. The code inverts the
innovation covariance S = H P Hᵀ + R with a direct np.linalg.inv and no
regularization: with the zero observation matrix H = [[0, 0]] and zero
measurement noise R = [[0]] (a singular covariance), S = 0 and the
smoother raises LinAlgError on a two-step input. -/
theorem C9_counterexample :
    DeepOF.rtsSmoother [0, 0] ((1, 1), (0, 1)) (0, 0) DeepOF.m2zero 0 =
      .error (.linAlgError "Matrix is singular to machine precision.") := by
  simp only [DeepOF.rtsSmoother, DeepOF.forwardSteps, DeepOF.invSE]
  rw [if_pos (show DeepOF.hPh ((0:ℝ), (0:ℝ))
      (DeepOF.m2add (DeepOF.m2mul (DeepOF.m2mul ((1, 1), (0, 1))
        (DeepOF.m2scale 1000 DeepOF.m2id))
        (DeepOF.m2transpose ((1, 1), (0, 1)))) DeepOF.m2zero) + 0 = 0 by
    simp only [DeepOF.hPh, DeepOF.m2add, DeepOF.m2mul, DeepOF.m2transpose,
      DeepOF.m2scale, DeepOF.m2id, DeepOF.m2zero]
    norm_num)]
  rfl

/-- C9, amended. The covariance inversions of rts_smoother_numba are
direct np.linalg.inv calls with no singularity guard or diagonal
regularization: whenever the first innovation covariance
S = H (F (1000 I) Fᵀ + Q) Hᵀ + R is zero, the smoother raises LinAlgError
(for any measurements of length at least 2) instead of regularizing. -/
theorem C9_amended_unguarded_inversion (F : DeepOF.Mat2) (H : DeepOF.Vec2)
    (Q : DeepOF.Mat2) (R : ℝ) (m0 m1 : ℝ) (rest : List ℝ)
    (h : DeepOF.innovCov1 F H Q R = 0) :
    DeepOF.rtsSmoother (m0 :: m1 :: rest) F H Q R =
      .error (.linAlgError "Matrix is singular to machine precision.") := by
  simp only [DeepOF.innovCov1] at h
  simp only [DeepOF.rtsSmoother, DeepOF.forwardSteps, DeepOF.invSE]
  rw [if_pos h]
  rfl

/-- Witness for C9_amended_unguarded_inversion at a concrete model with
singular innovation covariance. -/
theorem C9_amended_witness :
    DeepOF.rtsSmoother [5, 7] ((1, 1), (0, 1)) (0, 0) DeepOF.m2zero 0 =
      .error (.linAlgError "Matrix is singular to machine precision.") :=
  C9_amended_unguarded_inversion ((1, 1), (0, 1)) (0, 0) DeepOF.m2zero 0 5 7 [] (by
    simp only [DeepOF.innovCov1, DeepOF.hPh, DeepOF.m2add, DeepOF.m2mul,
      DeepOF.m2transpose, DeepOF.m2scale, DeepOF.m2id, DeepOF.m2zero]
    norm_num)

/-- C3, counterexample. On a table whose A column has an interpolable gap
while the B column is never observed (so no frame is ever fully observed),
fit_transform with full_imputation raises ValueError (the
InsufficientDataError of the spec) — but only after mutating its input in
place with linear interpolation (the returned table state differs from the
input), and the per-experiment loop of iterative_imputation catches the
ValueError and returns the experiment's table unchanged, so the error
never reaches the caller. The claim asserts the error is raised to the
caller without any mutation of the input; both parts fail. -/
theorem C3_counterexample :
    (DeepOF.fitTransform true 3 100 [("A", ["B"]), ("B", ["A"])]
        ["Row", "Row", "A", "A", "B", "B"] DeepOF.trivialImpute
        [[some 0, some 0, some 1, some 1, none, none],
         [some 1, some 1, none, some 2, none, none],
         [some 2, some 2, some 3, some 3, none, none]]).1 =
      .error (.valueError "No complete frames found in the data.") ∧
    (DeepOF.fitTransform true 3 100 [("A", ["B"]), ("B", ["A"])]
        ["Row", "Row", "A", "A", "B", "B"] DeepOF.trivialImpute
        [[some 0, some 0, some 1, some 1, none, none],
         [some 1, some 1, none, some 2, none, none],
         [some 2, some 2, some 3, some 3, none, none]]).2 ≠
      [[some 0, some 0, some 1, some 1, none, none],
       [some 1, some 1, none, some 2, none, none],
       [some 2, some 2, some 3, some 3, none, none]] ∧
    DeepOF.imputeTable true 3 100 [("A", ["B"]), ("B", ["A"])]
        ["Row", "Row", "A", "A", "B", "B"] DeepOF.trivialImpute
        [[some 0, some 0, some 1, some 1, none, none],
         [some 1, some 1, none, some 2, none, none],
         [some 2, some 2, some 3, some 3, none, none]] =
      .ok [[some 0, some 0, some 1, some 1, none, none],
         [some 1, some 1, none, some 2, none, none],
         [some 2, some 2, some 3, some 3, none, none]] := by
  refine ⟨rfl, ?_, rfl⟩
  intro h
  have h1 : (((DeepOF.fitTransform true 3 100 [("A", ["B"]), ("B", ["A"])]
      ["Row", "Row", "A", "A", "B", "B"] DeepOF.trivialImpute
      [[some 0, some 0, some 1, some 1, none, none],
       [some 1, some 1, none, some 2, none, none],
       [some 2, some 2, some 3, some 3, none, none]]).2.getD 1 []).getD 2
      none).isSome = true := by decide
  rw [h] at h1
  exact absurd h1 (by decide)

/-- C3, amended. When full_imputation is set and the input table, after
the initial in-place linear interpolation, still has missing values but no
fully observed frame, fit_transform raises ValueError — with its input
already mutated by the interpolation (the function exits with the
interpolated table, not the original) — and the per-experiment try/except
of iterative_imputation catches the ValueError, warns, and keeps that
experiment's table unchanged: the error is recovered locally, not raised
to the caller. -/
theorem C3_amended_local_recovery_after_mutation (limit maxSamples : ℕ)
    (adj : List (String × List String)) (cols : List String)
    (impute : List (List (DeepOF.Entry × DeepOF.Entry)) → List (List DeepOF.Pt))
    (rows : List (List DeepOF.Entry))
    (h1 : (DeepOF.interpolateTable limit rows).any
      (fun r => r.any Option.isNone) = true)
    (h2 : (DeepOF.completeFrames (DeepOF.interpolateTable limit rows)).length = 0) :
    DeepOF.fitTransform true limit maxSamples adj cols impute rows =
      (.error (.valueError "No complete frames found in the data."),
       DeepOF.interpolateTable limit rows) ∧
    DeepOF.imputeTable true limit maxSamples adj cols impute rows = .ok rows := by
  have herr : DeepOF.initConstraints maxSamples adj cols
      (DeepOF.interpolateTable limit rows) =
      .error (.valueError "No complete frames found in the data.") := by
    unfold DeepOF.initConstraints
    rw [if_pos h2]
  have hfit : DeepOF.fitTransform true limit maxSamples adj cols impute rows =
      (.error (.valueError "No complete frames found in the data."),
       DeepOF.interpolateTable limit rows) := by
    simp only [DeepOF.fitTransform]
    rw [h1]
    rw [if_pos (by rfl : (true && true) = true)]
    rw [herr]
    rfl
  refine ⟨hfit, ?_⟩
  unfold DeepOF.imputeTable
  have hfst : (DeepOF.fitTransform true limit maxSamples adj cols impute rows).1 =
      .error (.valueError "No complete frames found in the data.") := by
    rw [hfit]
  rw [hfst]

/-- Witness for C3_amended_local_recovery_after_mutation on a two-column
table with one never-observed body part. -/
theorem C3_amended_witness :
    DeepOF.fitTransform true 3 100 [("A", ["B"]), ("B", ["A"])]
        ["Row", "Row", "A", "A", "B", "B"] DeepOF.trivialImpute
        [[some 0, some 0, some 1, some 1, none, none],
         [some 1, some 1, some 2, some 2, none, none]] =
      (.error (.valueError "No complete frames found in the data."),
       DeepOF.interpolateTable 3
        [[some 0, some 0, some 1, some 1, none, none],
         [some 1, some 1, some 2, some 2, none, none]]) ∧
    DeepOF.imputeTable true 3 100 [("A", ["B"]), ("B", ["A"])]
        ["Row", "Row", "A", "A", "B", "B"] DeepOF.trivialImpute
        [[some 0, some 0, some 1, some 1, none, none],
         [some 1, some 1, some 2, some 2, none, none]] =
      .ok [[some 0, some 0, some 1, some 1, none, none],
         [some 1, some 1, some 2, some 2, none, none]] :=
  C3_amended_local_recovery_after_mutation 3 100 [("A", ["B"]), ("B", ["A"])]
    ["Row", "Row", "A", "A", "B", "B"] DeepOF.trivialImpute
    [[some 0, some 0, some 1, some 1, none, none],
     [some 1, some 1, some 2, some 2, none, none]] (by decide) (by decide)
